import Mathlib

/-!
Verification of the region-of-interest (ROI) distance/correlation pipeline of
the statistics notebooks: centroid extraction from boolean masks, the pairwise
Euclidean distance matrix, upper-triangular flattening, and the linear
association estimator.
-/

namespace RoiPipeline

/-- A region-of-interest mask: a 2D boolean grid, given as a list of rows
(one `rois[i]` of the source). -/
abbrev Mask : Type := List (List Bool)

/-- Row-major list of `(row, column)` index pairs of the true entries of a
mask. This models `ind = np.where(rois[i])` of the source: `ind[0]` is the
array of row indices and `ind[1]` the array of column indices, both in
row-major order, here zipped into one list of pairs. -/
def trueIndices (m : Mask) : List (Nat × Nat) :=
  m.enum.flatMap (fun r => r.2.enum.filterMap (fun c => if c.2 then some (r.1, c.1) else none))

/-- Arithmetic mean of a list of natural-number indices, as in the source's
`np.mean(ind[k])`. numpy's mean of an empty array is NaN; the NaN outcome is
modelled as `none`. -/
def npMean (l : List Nat) : Option ℚ :=
  if l.length = 0 then none else some ((l.map (fun v => (v : ℚ))).sum / l.length)

/-- `loc_x[i] = np.mean(ind[1])` of the source: the mean of the column
indices of the true entries of the mask. -/
def loc_x (m : Mask) : Option ℚ := npMean ((trueIndices m).map Prod.snd)

/-- `loc_y[i] = np.mean(ind[0])` of the source: the mean of the row
indices of the true entries of the mask. -/
def loc_y (m : Mask) : Option ℚ := npMean ((trueIndices m).map Prod.fst)

/-- The centroid of a mask in the spec's `(row, column)` coordinate order:
the pair `(loc_y[i], loc_x[i])` of the source. A `none` component models a
numpy NaN coordinate (empty mask). -/
def maskCentroid (m : Mask) : Option ℚ × Option ℚ := (loc_y m, loc_x m)

/-- A mask has at least one true entry. -/
def maskNonempty (m : Mask) : Prop := trueIndices m ≠ []

instance (m : Mask) : Decidable (maskNonempty m) := by
  unfold maskNonempty; infer_instance

/-- One entry of the source's distance loop:
`distance[i,j] = np.sqrt((loc_x[i]-loc_x[j])**2 + (loc_y[i]-loc_y[j])**2)`. -/
noncomputable def distEntry (xi yi xj yj : ℚ) : ℝ :=
  Real.sqrt (((xi : ℝ) - (xj : ℝ)) ^ 2 + ((yi : ℝ) - (yj : ℝ)) ^ 2)

/-- The pairwise distance matrix built from an ordered sequence of centroids
(in `(row, column)` order, so `.2` is the x/column and `.1` the y/row
coordinate): the source's double loop `for i in range(num_cells): for j in
range(num_cells): distance[i, j] = np.sqrt(...)`, as a list of rows. -/
noncomputable def distanceMatrix (cs : List (ℚ × ℚ)) : List (List ℝ) :=
  (List.range cs.length).map (fun i =>
    (List.range cs.length).map (fun j =>
      distEntry (cs.getD i (0, 0)).2 (cs.getD i (0, 0)).1
        (cs.getD j (0, 0)).2 (cs.getD j (0, 0)).1))

/-- The source pipeline from the ROI masks to the distance matrix: extract
every centroid, then build the pairwise matrix. The source lets numpy's NaN
flow into the matrix when a mask is empty; the `Option` centroid is unwrapped
with a junk default `0`, reachable only for empty masks, which every theorem
about `distance` excludes by hypothesis. -/
noncomputable def distance (ms : List Mask) : List (List ℝ) :=
  distanceMatrix (ms.map (fun m => ((loc_y m).getD 0, (loc_x m).getD 0)))

/-- `np.triu_indices(n, k=1)` of the source: the `(row, column)` positions
strictly above the main diagonal of an n×n matrix, in row-major order, given
as the zipped pair of the two returned index arrays `inds[0], inds[1]`. -/
def triu_indices (n : Nat) : List (Nat × Nat) :=
  (List.range n).flatMap (fun i => (List.range' (i + 1) (n - (i + 1))).map (fun j => (i, j)))

/-- The fancy indexing `M[inds[0], inds[1]]` of the source (with
`inds = np.triu_indices(n, k=1)`): the strict upper triangle of a square
matrix `M`, given by its entry function, flattened in the traversal order of
`triu_indices`. -/
def flattenUpper {α : Type} (M : Nat → Nat → α) (n : Nat) : List α :=
  (triu_indices n).map (fun p => M p.1 p.2)

/-- Mean of a list of rationals (`x.sum / x.length`; the length is coerced,
and division by zero for the empty list yields `0` by Lean's convention —
every use below has a nonempty list). -/
def listMean (x : List ℚ) : ℚ := x.sum / (x.length : ℚ)

/-- Sum of squared deviations from the mean: `n` times the (population)
variance of the sequence; zero exactly when the sequence is constant. -/
def ssDev (x : List ℚ) : ℚ := (x.map (fun v => (v - listMean x) ^ 2)).sum

/-- Sum of cross deviations of two paired sequences. -/
def ssCross (x y : List ℚ) : ℚ :=
  ((x.zip y).map (fun p => (p.1 - listMean x) * (p.2 - listMean y))).sum

/-- Error taxonomy of the spec's Linear Association Estimator. -/
inductive AssocError : Type where
  | insufficientData : AssocError
  | degenerateInput : AssocError
  deriving DecidableEq

/-- Result record of the Linear Association Estimator. The correlation
coefficient `r` and the standard error are square roots of rationals, so
they are represented exactly by their squares (`rSq`, `stderrSq`) together
with the sign of `r` (`rNonneg`); `pvalueZero` records whether the two-sided
p-value for a zero slope is exactly `0`, which happens precisely when the
residual sum of squares vanishes with more than two points (the t statistic
diverges). -/
structure AssocResult : Type where
  slope : ℚ
  intercept : ℚ
  rSq : ℚ
  rNonneg : Bool
  stderrSq : ℚ
  pvalueZero : Bool
  deriving DecidableEq

/-- Modelled from the spec: the Linear Association Estimator (spec section
4.4). The source delegates this component to an external statistics library
(`sp.stats.linregress` / `sp.stats.pearsonr`) whose implementation is not
part of this repository, so the definition follows the spec's contract:
fail with `InsufficientDataError` if either sequence has fewer than two
values, fail with `DegenerateInputError` if either sequence has zero
variance, and otherwise return the ordinary-least-squares slope and
intercept, the Pearson correlation coefficient (via `rSq`/`rNonneg`), the
standard error of the slope (via `stderrSq`), and the two-sided p-value
(via `pvalueZero`). -/
def linearAssociation (x y : List ℚ) : Except AssocError AssocResult :=
  if x.length < 2 ∨ y.length < 2 then .error .insufficientData
  else if ssDev x = 0 ∨ ssDev y = 0 then .error .degenerateInput
  else
    let b := ssCross x y / ssDev x
    .ok { slope := b
          intercept := listMean y - b * listMean x
          rSq := (ssCross x y) ^ 2 / (ssDev x * ssDev y)
          rNonneg := decide (0 ≤ ssCross x y)
          stderrSq := (ssDev y - b * ssCross x y) / (((x.length : ℚ) - 2) * ssDev x)
          pvalueZero := decide (2 < x.length ∧ ssDev y - b * ssCross x y = 0) }

/-- A 5×4 mask whose only true pixel is `(0, 0)`. -/
def maskA : Mask :=
  [[true, false, false, false],
   [false, false, false, false],
   [false, false, false, false],
   [false, false, false, false],
   [false, false, false, false]]

/-- A 5×4 mask whose only true pixel is `(0, 3)`. -/
def maskB : Mask :=
  [[false, false, false, true],
   [false, false, false, false],
   [false, false, false, false],
   [false, false, false, false],
   [false, false, false, false]]

/-- A 5×4 mask whose only true pixel is `(4, 0)`. -/
def maskC : Mask :=
  [[false, false, false, false],
   [false, false, false, false],
   [false, false, false, false],
   [false, false, false, false],
   [true, false, false, false]]

/-- A 2×2 mask with no true entry. -/
def emptyMask : Mask :=
  [[false, false],
   [false, false]]

/-- All masks of a list are rectangular grids of the same dimensions. -/
def sameDims (ms : List Mask) : Prop :=
  ∃ nr nc : ℕ, ∀ m ∈ ms, m.length = nr ∧ ∀ row ∈ m, row.length = nc

/-- C5: for every mask with at least one true entry, the ROI Centroid
Extractor returns the centroid (mean of the row indices of the true entries,
mean of the column indices of the true entries), in that (row, column)
order. -/
theorem centroid_mean_of_indices (m : Mask) (h : maskNonempty m) :
    maskCentroid m =
      (some ((((trueIndices m).map Prod.fst).map (fun v => (v : ℚ))).sum /
          ((trueIndices m).length : ℚ)),
       some ((((trueIndices m).map Prod.snd).map (fun v => (v : ℚ))).sum /
          ((trueIndices m).length : ℚ))) := by
  have h0 : (trueIndices m).length ≠ 0 := by
    intro hc
    exact h (List.length_eq_zero.mp hc)
  unfold maskCentroid loc_y loc_x npMean
  simp [List.length_map, h0]

/-- Witness for `centroid_mean_of_indices` at the concrete one-pixel mask
`maskA`. -/
theorem centroid_mean_of_indices_witness :
    maskNonempty maskA ∧
      maskCentroid maskA =
        (some ((((trueIndices maskA).map Prod.fst).map (fun v => (v : ℚ))).sum /
            ((trueIndices maskA).length : ℚ)),
         some ((((trueIndices maskA).map Prod.snd).map (fun v => (v : ℚ))).sum /
            ((trueIndices maskA).length : ℚ))) :=
  ⟨by decide, centroid_mean_of_indices maskA (by decide)⟩

/-- C2 counterexample: the source raises no error on an all-false mask; on the
empty 2×2 mask the extractor returns the NaN centroid (both coordinates
`none`), so the claim that an empty mask is rejected rather than yielding NaN
is false. -/
theorem empty_mask_error_counterexample :
    ¬ (∀ m : Mask, ¬ maskNonempty m → maskCentroid m ≠ (none, none)) := by
  intro hclaim
  exact hclaim emptyMask (by decide) (by decide)

/-- C2 (amended): for every mask with no true entries, the ROI Centroid
Extractor silently returns the NaN centroid (numpy's mean of an empty array),
modelled as `(none, none)`; no `EmptyMaskError` exists in the code. -/
theorem empty_mask_yields_nan (m : Mask) (h : ¬ maskNonempty m) :
    maskCentroid m = (none, none) := by
  rw [maskNonempty, not_not] at h
  unfold maskCentroid loc_y loc_x npMean
  simp [h]

/-- Witness for `empty_mask_yields_nan` at the all-false 2×2 mask. -/
theorem empty_mask_yields_nan_witness :
    ¬ maskNonempty emptyMask ∧ maskCentroid emptyMask = (none, none) :=
  ⟨by decide, empty_mask_yields_nan emptyMask (by decide)⟩

/-- C7: the Linear Association Estimator fails with `InsufficientDataError`
whenever either input sequence has fewer than 2 values; it fails with
`DegenerateInputError` whenever (both are long enough and) either sequence
has zero variance; otherwise it returns a full result record (slope,
intercept, correlation coefficient, two-sided p-value and standard error). -/
theorem linear_association_errors (x y : List ℚ) :
    (x.length < 2 ∨ y.length < 2 →
      linearAssociation x y = .error .insufficientData) ∧
    (¬(x.length < 2 ∨ y.length < 2) → (ssDev x = 0 ∨ ssDev y = 0) →
      linearAssociation x y = .error .degenerateInput) ∧
    (¬(x.length < 2 ∨ y.length < 2) → ¬(ssDev x = 0 ∨ ssDev y = 0) →
      ∃ res : AssocResult, linearAssociation x y = .ok res) := by
  refine ⟨fun h => ?_, fun h1 h2 => ?_, fun h1 h2 => ?_⟩
  · simp [linearAssociation, h]
  · simp [linearAssociation, h1, h2]
  · unfold linearAssociation
    rw [if_neg h1, if_neg h2]
    exact ⟨_, rfl⟩

/-- Witness for `linear_association_errors`: a one-point input is rejected as
insufficient, the constant sequence `[5,5,5,5,5]` is rejected as degenerate,
and a nondegenerate two-point input yields a result. -/
theorem linear_association_errors_witness :
    linearAssociation [1] [2] = .error .insufficientData ∧
    linearAssociation [1, 2, 3, 4, 5] [5, 5, 5, 5, 5] = .error .degenerateInput ∧
    ∃ res : AssocResult, linearAssociation [0, 1] [0, 2] = .ok res := by
  refine ⟨(linear_association_errors [1] [2]).1 (by norm_num),
          (linear_association_errors [1, 2, 3, 4, 5] [5, 5, 5, 5, 5]).2.1 (by norm_num)
            (Or.inr (by norm_num [ssDev, listMean])),
          (linear_association_errors [0, 1] [0, 2]).2.2 (by norm_num) ?_⟩
  norm_num [ssDev, listMean]

/-- C9: on the perfectly correlated input `x = [1,2,3,4,5]`,
`y = [2,4,6,8,10]`, the Linear Association Estimator returns slope 2,
intercept 0, correlation coefficient 1 (`rSq = 1` with nonnegative sign), a
two-sided p-value of exactly 0, and a zero standard error. -/
theorem linear_association_perfect :
    linearAssociation [1, 2, 3, 4, 5] [2, 4, 6, 8, 10] =
      .ok { slope := 2, intercept := 0, rSq := 1, rNonneg := true,
            stderrSq := 0, pvalueZero := true } := by
  norm_num [linearAssociation, ssDev, ssCross, listMean]

/-- Summing `f i + 1` over a list adds the list's length to the sum of `f`. -/
theorem sum_map_add_one (l : List ℕ) (f : ℕ → ℕ) :
    (l.map (fun i => f i + 1)).sum = (l.map f).sum + l.length := by
  induction l with
  | nil => simp
  | cons a t ih => simp [ih]; omega

/-- Gauss sum in reflected form: the row lengths of the strict upper triangle
add up to `n(n-1)/2`. -/
theorem sum_range_rev (n : ℕ) :
    ((List.range n).map (fun i => n - 1 - i)).sum = n * (n - 1) / 2 := by
  induction n with
  | zero => rfl
  | succ m ih =>
    rw [List.range_succ]
    simp only [List.map_append, List.sum_append, List.map_cons, List.map_nil, List.sum_cons,
      List.sum_nil]
    have h1 : (List.range m).map (fun i => m + 1 - 1 - i) =
        (List.range m).map (fun i => (m - 1 - i) + 1) := by
      apply List.map_congr_left
      intro a ha
      rw [List.mem_range] at ha
      omega
    rw [h1, sum_map_add_one, List.length_range, ih]
    have h3 : (m + 1) * (m + 1 - 1) = m * (m - 1) + 2 * m := by
      cases m with
      | zero => rfl
      | succ k => simp [Nat.add_sub_cancel]; ring
    rw [h3]
    omega

/-- The strict upper triangle of an n×n matrix has `n(n-1)/2` positions. -/
theorem triu_indices_length (n : ℕ) : (triu_indices n).length = n * (n - 1) / 2 := by
  unfold triu_indices
  rw [List.length_flatMap]
  have h : (List.range n).map
        (List.length ∘ fun i => (List.range' (i + 1) (n - (i + 1))).map (fun j => (i, j))) =
      (List.range n).map (fun i => n - 1 - i) := by
    apply List.map_congr_left
    intro a ha
    simp only [Function.comp, List.length_map, List.length_range']
    omega
  rw [h, sum_range_rev]

/-- A pair is listed by `triu_indices n` exactly when its column index
strictly exceeds its row index and both lie in the matrix. -/
theorem triu_indices_mem (n : ℕ) (p : ℕ × ℕ) :
    p ∈ triu_indices n ↔ p.1 < p.2 ∧ p.2 < n := by
  unfold triu_indices
  simp only [List.mem_flatMap, List.mem_range, List.mem_map, List.mem_range'_1]
  constructor
  · rintro ⟨i, hi, j, ⟨hj1, hj2⟩, rfl⟩
    exact ⟨by omega, by omega⟩
  · rintro ⟨h1, h2⟩
    exact ⟨p.1, by omega, p.2, ⟨by omega, by omega⟩, rfl⟩

/-- The pairs of `triu_indices n` are listed in strictly increasing row-major
(lexicographic) order. -/
theorem triu_indices_pairwise (n : ℕ) :
    List.Pairwise (fun p q : ℕ × ℕ => p.1 < q.1 ∨ (p.1 = q.1 ∧ p.2 < q.2))
      (triu_indices n) := by
  unfold triu_indices
  rw [List.flatMap_def, List.pairwise_flatten]
  constructor
  · intro l hl
    rw [List.mem_map] at hl
    obtain ⟨i, _, rfl⟩ := hl
    rw [List.pairwise_map]
    exact (List.pairwise_lt_range' _ _).imp (fun hab => Or.inr ⟨rfl, hab⟩)
  · rw [List.pairwise_map]
    refine (List.pairwise_lt_range n).imp ?_
    intro a b hab x hx y hy
    rw [List.mem_map] at hx hy
    obtain ⟨j, _, rfl⟩ := hx
    obtain ⟨j2, _, rfl⟩ := hy
    exact Or.inl hab

/-- C6: for every n×n matrix with n ≥ 2, the Upper-Triangular Flattener
returns exactly the `n(n-1)/2` entries at positions where the column index
strictly exceeds the row index, traversed in row-major order (its traversal
list contains each such pair exactly once, sorted strictly lexicographically,
hence with no repeated pair and no self-pair). -/
theorem triu_flattener_spec {α : Type} (M : ℕ → ℕ → α) (n : ℕ) (_hn : 2 ≤ n) :
    (flattenUpper M n).length = n * (n - 1) / 2 ∧
    (∀ p : ℕ × ℕ, p ∈ triu_indices n ↔ p.1 < p.2 ∧ p.2 < n) ∧
    List.Pairwise (fun p q : ℕ × ℕ => p.1 < q.1 ∨ (p.1 = q.1 ∧ p.2 < q.2))
      (triu_indices n) := by
  refine ⟨?_, triu_indices_mem n, triu_indices_pairwise n⟩
  rw [flattenUpper, List.length_map, triu_indices_length]

/-- Witness for `triu_flattener_spec` at n = 3 with the entry-position
matrix. -/
theorem triu_flattener_spec_witness :
    (flattenUpper (fun i j => (i, j)) 3).length = 3 * (3 - 1) / 2 ∧
    (∀ p : ℕ × ℕ, p ∈ triu_indices 3 ↔ p.1 < p.2 ∧ p.2 < 3) ∧
    List.Pairwise (fun p q : ℕ × ℕ => p.1 < q.1 ∨ (p.1 = q.1 ∧ p.2 < q.2))
      (triu_indices 3) :=
  triu_flattener_spec (fun i j => (i, j)) 3 (by norm_num)

/-- C1: the k-th elements of the flattened sequences of two same-shape
matrices come from the same (row, column) position; on the matrices
`M1[i][j] = i*N + j` and `M2[i][j] = 100 + i*N + j` the flattened sequences
therefore satisfy `flat2[k] - flat1[k] = 100` at every index k. -/
theorem flattener_index_paired (N k : ℕ) (hk : k < (triu_indices N).length) :
    ∃ (p : ℕ × ℕ) (a b : ℤ),
      (triu_indices N)[k]? = some p ∧
      (flattenUpper (fun i j => ((i : ℤ) * N + j)) N)[k]? = some a ∧
      (flattenUpper (fun i j => (100 + (i : ℤ) * N + j)) N)[k]? = some b ∧
      a = (p.1 : ℤ) * N + p.2 ∧ b = 100 + (p.1 : ℤ) * N + p.2 ∧ b - a = 100 := by
  refine ⟨(triu_indices N)[k], (((triu_indices N)[k]).1 : ℤ) * N + ((triu_indices N)[k]).2,
    100 + (((triu_indices N)[k]).1 : ℤ) * N + ((triu_indices N)[k]).2,
    List.getElem?_eq_getElem hk, ?_, ?_, rfl, rfl, by ring⟩
  · rw [flattenUpper, List.getElem?_map, List.getElem?_eq_getElem hk]
    rfl
  · rw [flattenUpper, List.getElem?_map, List.getElem?_eq_getElem hk]
    rfl

/-- Witness for `flattener_index_paired` at N = 4, k = 2. -/
theorem flattener_index_paired_witness :
    ∃ (p : ℕ × ℕ) (a b : ℤ),
      (triu_indices 4)[2]? = some p ∧
      (flattenUpper (fun i j => ((i : ℤ) * 4 + j)) 4)[2]? = some a ∧
      (flattenUpper (fun i j => (100 + (i : ℤ) * 4 + j)) 4)[2]? = some b ∧
      a = (p.1 : ℤ) * 4 + p.2 ∧ b = 100 + (p.1 : ℤ) * 4 + p.2 ∧ b - a = 100 :=
  flattener_index_paired 4 2 (by decide)

/-- Entry access for the built distance matrix: for in-range indices the
(i,j) entry is the source's loop formula applied to the i-th and j-th
centroids. -/
theorem distanceMatrix_entry (cs : List (ℚ × ℚ)) (i j : ℕ)
    (hi : i < cs.length) (hj : j < cs.length) :
    ((distanceMatrix cs).getD i []).getD j 0 =
      distEntry (cs.getD i (0, 0)).2 (cs.getD i (0, 0)).1
        (cs.getD j (0, 0)).2 (cs.getD j (0, 0)).1 := by
  simp [distanceMatrix, List.getD_eq_getElem?_getD, List.getElem?_map,
    List.getElem?_range, hi, hj]

/-- The Euclidean triangle inequality for the square-root expression of the
source's distance formula, obtained from the metric on the complex plane. -/
theorem sqrt_triangle (x1 y1 x2 y2 x3 y3 : ℝ) :
    Real.sqrt ((x1 - x3) ^ 2 + (y1 - y3) ^ 2) ≤
      Real.sqrt ((x1 - x2) ^ 2 + (y1 - y2) ^ 2) +
        Real.sqrt ((x2 - x3) ^ 2 + (y2 - y3) ^ 2) := by
  have h := dist_triangle (⟨x1, y1⟩ : ℂ) ⟨x2, y2⟩ ⟨x3, y3⟩
  simp only [Complex.dist_eq, Complex.abs_apply, Complex.normSq_apply, Complex.sub_re,
    Complex.sub_im] at h
  convert h using 3 <;> ring

/-- A distance entry is a square root, hence nonnegative. -/
theorem distEntry_nonneg (xi yi xj yj : ℚ) : 0 ≤ distEntry xi yi xj yj :=
  Real.sqrt_nonneg _

/-- The distance of a centroid to itself is zero. -/
theorem distEntry_self (x y : ℚ) : distEntry x y x y = 0 := by
  simp [distEntry]

/-- The distance formula is symmetric in its two centroids. -/
theorem distEntry_symm (xi yi xj yj : ℚ) :
    distEntry xi yi xj yj = distEntry xj yj xi yi := by
  unfold distEntry
  congr 1
  ring

/-- Three centroids satisfy the triangle inequality under the source's
distance formula. -/
theorem distEntry_triangle (x1 y1 x2 y2 x3 y3 : ℚ) :
    distEntry x1 y1 x3 y3 ≤ distEntry x1 y1 x2 y2 + distEntry x2 y2 x3 y3 :=
  sqrt_triangle _ _ _ _ _ _

/-- C3: for every ordered sequence of centroids, entry (i,j) of the built
matrix is the Euclidean distance `sqrt((x_i - x_j)^2 + (y_i - y_j)^2)`
between centroid i and centroid j (x = column coordinate, y = row
coordinate). -/
theorem distance_entry_formula (cs : List (ℚ × ℚ)) (i j : ℕ)
    (hi : i < cs.length) (hj : j < cs.length) :
    ((distanceMatrix cs).getD i []).getD j 0 =
      Real.sqrt ((((cs.get ⟨i, hi⟩).2 : ℝ) - ((cs.get ⟨j, hj⟩).2 : ℝ)) ^ 2 +
        (((cs.get ⟨i, hi⟩).1 : ℝ) - ((cs.get ⟨j, hj⟩).1 : ℝ)) ^ 2) := by
  rw [distanceMatrix_entry cs i j hi hj, distEntry,
    List.getD_eq_getElem cs (0, 0) hi, List.getD_eq_getElem cs (0, 0) hj]
  rfl

/-- Witness for `distance_entry_formula` on the two centroids (0,0), (0,3):
the (0,1) entry is `sqrt((0-3)^2 + (0-0)^2)`. -/
theorem distance_entry_formula_witness :
    ((distanceMatrix [((0 : ℚ), (0 : ℚ)), (0, 3)]).getD 0 []).getD 1 0 =
      Real.sqrt (((0 : ℝ) - 3) ^ 2 + ((0 : ℝ) - 0) ^ 2) := by
  have h := distance_entry_formula [((0 : ℚ), (0 : ℚ)), (0, 3)] 0 1 (by norm_num) (by norm_num)
  simpa using h

/-- C4: for every valid mask set (all masks non-empty and of the same
dimensions), the distance matrix produced by the pipeline is symmetric with
zero diagonal. -/
theorem distance_symm_zero_diag (ms : List Mask) (_hne : ∀ m ∈ ms, maskNonempty m)
    (_hdim : sameDims ms) (i j : ℕ) (hi : i < ms.length) (hj : j < ms.length) :
    ((distance ms).getD i []).getD i 0 = 0 ∧
    ((distance ms).getD i []).getD j 0 = ((distance ms).getD j []).getD i 0 := by
  unfold distance
  have hi2 : i < (ms.map (fun m => ((loc_y m).getD 0, (loc_x m).getD 0))).length := by
    rw [List.length_map]; exact hi
  have hj2 : j < (ms.map (fun m => ((loc_y m).getD 0, (loc_x m).getD 0))).length := by
    rw [List.length_map]; exact hj
  constructor
  · rw [distanceMatrix_entry _ i i hi2 hi2]
    exact distEntry_self _ _
  · rw [distanceMatrix_entry _ i j hi2 hj2, distanceMatrix_entry _ j i hj2 hi2]
    exact distEntry_symm _ _ _ _

/-- Witness for `distance_symm_zero_diag` on the valid two-mask set
`[maskA, maskB]` at indices 0, 1. -/
theorem distance_symm_zero_diag_witness :
    (∀ m ∈ [maskA, maskB], maskNonempty m) ∧ sameDims [maskA, maskB] ∧
    (((distance [maskA, maskB]).getD 0 []).getD 0 0 = 0 ∧
      ((distance [maskA, maskB]).getD 0 []).getD 1 0 =
        ((distance [maskA, maskB]).getD 1 []).getD 0 0) :=
  ⟨by decide, ⟨5, 4, by decide⟩,
    distance_symm_zero_diag [maskA, maskB] (by decide) ⟨5, 4, by decide⟩ 0 1
      (by norm_num) (by norm_num)⟩

/-- C10: for every sequence of centroids and all in-range indices i, j, k,
the built distance matrix is nonnegative, has zero diagonal, is symmetric,
and satisfies the triangle inequality, so its entries form a pseudometric on
ROI indices. -/
theorem distance_pseudometric (cs : List (ℚ × ℚ)) (i j k : ℕ)
    (hi : i < cs.length) (hj : j < cs.length) (hk : k < cs.length) :
    0 ≤ ((distanceMatrix cs).getD i []).getD j 0 ∧
    ((distanceMatrix cs).getD i []).getD i 0 = 0 ∧
    ((distanceMatrix cs).getD i []).getD j 0 = ((distanceMatrix cs).getD j []).getD i 0 ∧
    ((distanceMatrix cs).getD i []).getD k 0 ≤
      ((distanceMatrix cs).getD i []).getD j 0 +
        ((distanceMatrix cs).getD j []).getD k 0 := by
  rw [distanceMatrix_entry cs i j hi hj, distanceMatrix_entry cs i i hi hi,
    distanceMatrix_entry cs j i hj hi, distanceMatrix_entry cs i k hi hk,
    distanceMatrix_entry cs j k hj hk]
  exact ⟨distEntry_nonneg _ _ _ _, distEntry_self _ _, distEntry_symm _ _ _ _,
    distEntry_triangle _ _ _ _ _ _⟩

/-- Witness for `distance_pseudometric` on the 3-4-5 centroid triple at
indices 0, 1, 2. -/
theorem distance_pseudometric_witness :
    0 ≤ ((distanceMatrix [((0 : ℚ), (0 : ℚ)), (0, 3), (4, 0)]).getD 0 []).getD 1 0 ∧
    ((distanceMatrix [((0 : ℚ), (0 : ℚ)), (0, 3), (4, 0)]).getD 0 []).getD 0 0 = 0 ∧
    ((distanceMatrix [((0 : ℚ), (0 : ℚ)), (0, 3), (4, 0)]).getD 0 []).getD 1 0 =
      ((distanceMatrix [((0 : ℚ), (0 : ℚ)), (0, 3), (4, 0)]).getD 1 []).getD 0 0 ∧
    ((distanceMatrix [((0 : ℚ), (0 : ℚ)), (0, 3), (4, 0)]).getD 0 []).getD 2 0 ≤
      ((distanceMatrix [((0 : ℚ), (0 : ℚ)), (0, 3), (4, 0)]).getD 0 []).getD 1 0 +
        ((distanceMatrix [((0 : ℚ), (0 : ℚ)), (0, 3), (4, 0)]).getD 1 []).getD 2 0 :=
  distance_pseudometric [((0 : ℚ), (0 : ℚ)), (0, 3), (4, 0)] 0 1 2
    (by norm_num) (by norm_num) (by norm_num)

/-- C8: on the three masks with single true pixels (0,0), (0,3), (4,0), the
pipeline produces the centroids (0,0), (0,3), (4,0) and the exact 3-4-5
distance matrix `[[0,3,4],[3,0,5],[4,5,0]]`. -/
theorem pipeline_345_matrix :
    maskCentroid maskA = (some 0, some 0) ∧
    maskCentroid maskB = (some 0, some 3) ∧
    maskCentroid maskC = (some 4, some 0) ∧
    distance [maskA, maskB, maskC] =
      [[0, 3, 4], [3, 0, 5], [4, 5, 0]] := by
  have tA : trueIndices maskA = [(0, 0)] := by decide
  have tB : trueIndices maskB = [(0, 3)] := by decide
  have tC : trueIndices maskC = [(4, 0)] := by decide
  have lA : ((loc_y maskA).getD 0, (loc_x maskA).getD 0) = ((0 : ℚ), (0 : ℚ)) := by
    norm_num [loc_y, loc_x, npMean, tA]
  have lB : ((loc_y maskB).getD 0, (loc_x maskB).getD 0) = ((0 : ℚ), (3 : ℚ)) := by
    norm_num [loc_y, loc_x, npMean, tB]
  have lC : ((loc_y maskC).getD 0, (loc_x maskC).getD 0) = ((4 : ℚ), (0 : ℚ)) := by
    norm_num [loc_y, loc_x, npMean, tC]
  have h9 : Real.sqrt 9 = 3 := by
    rw [show (9 : ℝ) = 3 ^ 2 by norm_num, Real.sqrt_sq (by norm_num : (0 : ℝ) ≤ 3)]
  have h16 : Real.sqrt 16 = 4 := by
    rw [show (16 : ℝ) = 4 ^ 2 by norm_num, Real.sqrt_sq (by norm_num : (0 : ℝ) ≤ 4)]
  have h25 : Real.sqrt 25 = 5 := by
    rw [show (25 : ℝ) = 5 ^ 2 by norm_num, Real.sqrt_sq (by norm_num : (0 : ℝ) ≤ 5)]
  refine ⟨?_, ?_, ?_, ?_⟩
  · norm_num [maskCentroid, loc_y, loc_x, npMean, tA]
  · norm_num [maskCentroid, loc_y, loc_x, npMean, tB]
  · norm_num [maskCentroid, loc_y, loc_x, npMean, tC]
  · unfold distance
    rw [show [maskA, maskB, maskC].map (fun m => ((loc_y m).getD 0, (loc_x m).getD 0)) =
        [((0 : ℚ), (0 : ℚ)), (0, 3), (4, 0)] by
      rw [List.map_cons, List.map_cons, List.map_cons, List.map_nil, lA, lB, lC]]
    norm_num [distanceMatrix, distEntry, List.range_succ, h9, h16, h25]

end RoiPipeline
